import Mathlib

/-!
Verification development for the nostr-intel-mcp server core.

The definitions below are shallow embeddings, translated from the Rust
sources:
  * `src/nostr/cache.rs`   — the SQLite-backed rate counter and profile cache;
  * `src/payment/free_tier.rs` — the fail-open free-tier limiter;
  * `src/server.rs`        — the `payment_gate` entry guard, the BOLT-11
    amount parser `parse_bolt11_amount`, and `truncate_content`;
  * `src/payment/l402.rs`  — L402 token issuance and verification.

Machine integers are modelled as `Nat` with explicit `% 2 ^ 64` where u64
overflow matters.  Byte strings are modelled as `List Nat` of byte values.
Database tables are modelled as total functions (a missing row and a zero
row are observationally equal for the rate counter, matching
`INSERT OR IGNORE ... DEFAULT 0` plus `get_rate_count` returning 0).
-/

/-! ## Rate-limit counter (src/nostr/cache.rs, `check_and_increment_rate`) -/

/-- The `rate_limits` table: `(client_id, day_ordinal) ↦ count`.
A key with no row behaves as count 0. -/
abbrev RateStore := String × Nat → Nat

/-- Point update of the rate table at one key. -/
def bumpRate (store : RateStore) (client : String) (day : Nat) : RateStore :=
  fun k => if k = (client, day) then store (client, day) + 1 else store k

/-- `Cache::check_and_increment_rate`: `INSERT OR IGNORE` a zero row, then
`UPDATE ... SET count = count + 1 WHERE ... AND count < limit`; the result is
`rows_affected > 0`, i.e. whether the pre-increment count was under the limit. -/
def check_and_increment_rate (store : RateStore) (client : String) (day : Nat)
    (limit : Nat) : Bool × RateStore :=
  if store (client, day) < limit then (true, bumpRate store client day)
  else (false, store)

/-- `Cache::get_rate_count`: the stored count, 0 when no row exists. -/
def get_rate_count (store : RateStore) (client : String) (day : Nat) : Nat :=
  store (client, day)

/-- A sequence of `n` `check_and_increment_rate` calls against one fixed
`(client, day)` key and limit, threading the store; returns the list of
boolean results in call order together with the final store. -/
def rateCalls (client : String) (day : Nat) (limit : Nat) :
    Nat → RateStore → List Bool × RateStore
  | 0, store => ([], store)
  | n + 1, store =>
    let r := check_and_increment_rate store client day limit
    let rest := rateCalls client day limit n r.2
    (r.1 :: rest.1, rest.2)

/-! ## Free-tier limiter (src/payment/free_tier.rs)

`FreeTierLimiter::check_and_increment` calls the cache and fails open: an
`Err` from SQLite is treated as "allowed".  Whether the underlying store
errors on a given call is an environmental fact; it is passed in as the
`dbError` flag selecting the `Err` branch of the Rust `match`. -/

/-- `FreeTierLimiter::check_and_increment` (fail-open on store error). -/
def freeTier_check_and_increment (dbError : Bool) (store : RateStore)
    (client : String) (day : Nat) (limit : Nat) : Bool × RateStore :=
  if dbError then (true, store)
  else check_and_increment_rate store client day limit

/-- `FreeTierLimiter::get_current_count` (returns 0 on store error). -/
def freeTier_get_current_count (dbError : Bool) (store : RateStore)
    (client : String) (day : Nat) : Nat :=
  if dbError then 0 else get_rate_count store client day

/-! ## The paywall gate (src/server.rs, `payment_gate`) -/

/-- Wallet answer to `NwcGateway::verify_payment` for a payment hash:
settled (`settled_at` present), unsettled, or an NWC RPC error. -/
inductive WalletLookup where
  | settled
  | unsettled
  | rpcError (msg : String)
deriving DecidableEq

/-- `InvoiceResponse` fields the gate consumes. -/
structure Invoice where
  invoice : String
  payment_hash : String
deriving DecidableEq

/-- The configured NWC invoice gateway, as the gate observes it:
settlement lookup per payment hash, and invoice creation from
(tool_name, amount_sats, description, expiry_secs). -/
structure Gateway where
  lookup : String → WalletLookup
  mkInvoice : String → Nat → String → Nat → Except String Invoice

/-- The configuration fields `payment_gate` reads. -/
structure Config where
  calls_per_day : Nat
  invoice_expiry_seconds : Nat

/-- `PaymentRequiredResponse` / `FreeTierExhaustedResponse` payloads; the
Rust code serialises these to JSON and wraps them in `EarlyReturn`. -/
inductive GatePayload where
  | paymentRequired (tool_name : String) (amount_sats : Nat)
      (invoice : String) (payment_hash : String) (message : String)
  | freeTierExhausted (calls_used : Nat) (calls_limit : Nat)
      (message : String) (payment_available : Bool)
deriving DecidableEq

/-- `enum PaymentGateResult` from src/server.rs. -/
inductive PaymentGateResult where
  | Proceed
  | EarlyReturn (payload : GatePayload)
deriving DecidableEq

/-- Message placed in `PaymentRequiredResponse` (the Rust `format!`). -/
def paymentRequiredMsg (amount : Nat) : String :=
  "Free tier exhausted. Payment required: " ++ toString amount ++
    " sats. Pay the invoice, then retry with the payment_hash parameter."

/-- Message placed in `FreeTierExhaustedResponse` (the Rust `format!`). -/
def freeTierExhaustedMsg (calls_used calls_limit : Nat) : String :=
  "Free tier exhausted (" ++ toString calls_used ++ "/" ++ toString calls_limit ++
    " calls used today). Payment system is not currently available. Free tier resets daily."

/-- `NostrIntelServer::payment_gate`.  The server state the gate touches is
the rate store (returned alongside the result); `gw` is `self.nwc_gateway`,
`sid` is `self.session_id`, `today` the UTC day ordinal at the call, and
`dbError` selects the store-error branch of the free-tier limiter. -/
def payment_gate (cfg : Config) (gw : Option Gateway) (sid : String) (today : Nat)
    (dbError : Bool) (store : RateStore) (tool_name : String) (amount : Nat)
    (payment_hash : Option String) : Except String PaymentGateResult × RateStore :=
  match payment_hash with
  | some hash =>
    match gw with
    | none => (.error "Payment system not configured", store)
    | some g =>
      match g.lookup hash with
      | .rpcError e => (.error e, store)
      | .unsettled => (.error "Payment not confirmed. Invoice may be unpaid or expired.", store)
      | .settled => (.ok .Proceed, store)
  | none =>
    let r := freeTier_check_and_increment dbError store sid today cfg.calls_per_day
    if r.1 then (.ok .Proceed, r.2)
    else
      match gw with
      | some g =>
        match g.mkInvoice tool_name amount ("nostr-intel: " ++ tool_name)
            cfg.invoice_expiry_seconds with
        | .error e => (.error e, r.2)
        | .ok inv =>
          (.ok (.EarlyReturn (.paymentRequired tool_name amount inv.invoice
              inv.payment_hash (paymentRequiredMsg amount))), r.2)
      | none =>
        let calls_used := freeTier_get_current_count dbError r.2 sid today
        (.ok (.EarlyReturn (.freeTierExhausted calls_used cfg.calls_per_day
            (freeTierExhaustedMsg calls_used cfg.calls_per_day) false)), r.2)

/-! ## Profile cache (src/nostr/cache.rs, `get_profile` / `set_profile`) -/

/-- The nine profile columns selected by `Cache::get_profile`. -/
structure CachedProfile where
  pubkey : String
  name : Option String
  display_name : Option String
  about : Option String
  picture : Option String
  banner : Option String
  nip05 : Option String
  lud16 : Option String
  website : Option String
deriving DecidableEq

/-- A full row of the `profiles` table (profile columns plus timestamps). -/
structure ProfileRow where
  profile : CachedProfile
  cached_at : Int
  expires_at : Int
deriving DecidableEq

/-- The `profiles` table keyed by pubkey (the primary key). -/
abbrev ProfilesTable := String → Option ProfileRow

/-- `Cache::set_profile`: `INSERT OR REPLACE` with `cached_at = now`,
`expires_at = now + profile_ttl`. -/
def set_profile (tbl : ProfilesTable) (p : CachedProfile) (now ttl : Int) :
    ProfilesTable :=
  fun k => if k = p.pubkey then some ⟨p, now, now + ttl⟩ else tbl k

/-- `Cache::get_profile`: `SELECT ... WHERE pubkey = ? AND expires_at > ?`
with `?` bound to the current time. -/
def get_profile (tbl : ProfilesTable) (pubkey : String) (now : Int) :
    Option CachedProfile :=
  match tbl pubkey with
  | none => none
  | some row => if row.expires_at > now then some row.profile else none

/-! ## L402 tokens (src/payment/l402.rs)

`create_token` serialises `L402TokenData` with serde_json and base64-encodes
it; `verify_token` inverts both layers before checking expiry and signature.
Both layers round-trip exactly (serde_json/base64 are injective with total
inverses on their ranges for these field types), so tokens are modelled at
the decoded `L402TokenData` level.  The keyed HMAC-SHA256 over the signing
byte stream is abstracted as the `mac` field of the manager; the signing
input `payment_hash bytes ++ tool bytes ++ be64(expires)` and the lowercase
hex encoding of the MAC output are modelled concretely. -/

/-- UTF-8 encoding of one scalar value, as byte values. -/
def utf8Char (c : Char) : List Nat :=
  let n := c.toNat
  if n < 128 then [n]
  else if n < 2048 then [192 + n / 64, 128 + n % 64]
  else if n < 65536 then [224 + n / 4096, 128 + n / 64 % 64, 128 + n % 64]
  else [240 + n / 262144, 128 + n / 4096 % 64, 128 + n / 64 % 64, 128 + n % 64]

/-- UTF-8 bytes of a string (`str::as_bytes`). -/
def utf8Bytes (s : String) : List Nat :=
  s.data.flatMap utf8Char

/-- `u64::to_be_bytes`. -/
def be64 (e : Nat) : List Nat :=
  [e / 2 ^ 56 % 256, e / 2 ^ 48 % 256, e / 2 ^ 40 % 256, e / 2 ^ 32 % 256,
   e / 2 ^ 24 % 256, e / 2 ^ 16 % 256, e / 2 ^ 8 % 256, e % 256]

/-- Lowercase hex digit for a value below 16. -/
def hexDigit (n : Nat) : Char :=
  if n < 10 then Char.ofNat (48 + n) else Char.ofNat (87 + n)

/-- Lowercase hex encoding of a byte list (`hex::encode`). -/
def hexEncode (bs : List Nat) : String :=
  String.mk (bs.flatMap (fun b => [hexDigit (b / 16), hexDigit (b % 16)]))

/-- `struct L402Caveats`. -/
structure L402Caveats where
  tool : String
  expires : Nat
deriving DecidableEq

/-- `struct L402TokenData` (signature stored as lowercase hex). -/
structure L402TokenData where
  payment_hash : String
  caveats : L402Caveats
  signature : String
deriving DecidableEq

/-- `enum L402Error` (the variants `verify_token` can produce). -/
inductive L402Error where
  | InvalidToken (msg : String)
  | Expired
  | BadSignature
deriving DecidableEq

/-- `L402Manager`: the keyed HMAC-SHA256 is held abstractly as `mac`
(bytes of the signing input to bytes of the tag). -/
structure L402Manager where
  mac : List Nat → List Nat

/-- The canonical signing input:
`payment_hash` bytes ∥ `tool` bytes ∥ 8-byte big-endian `expires`. -/
def signingInput (payment_hash tool : String) (expires : Nat) : List Nat :=
  utf8Bytes payment_hash ++ utf8Bytes tool ++ be64 expires

/-- `L402Manager::sign`: lowercase hex of the HMAC over the signing input. -/
def l402sign (M : L402Manager) (payment_hash : String) (c : L402Caveats) : String :=
  hexEncode (M.mac (signingInput payment_hash c.tool c.expires))

/-- `L402Manager::create_token`, at the decoded token level. -/
def create_token (M : L402Manager) (payment_hash tool : String) (expires : Nat) :
    L402TokenData :=
  { payment_hash := payment_hash
    caveats := { tool := tool, expires := expires }
    signature := l402sign M payment_hash { tool := tool, expires := expires } }

/-- `L402Manager::verify_token`, at the decoded token level (the base64 and
JSON error cases concern the transport encoding, which the decoded-level
model has already inverted): expiry is checked first (`expires = 0` means
never expires), then the recomputed signature. -/
def verify_token (M : L402Manager) (t : L402TokenData) (now : Nat) :
    Except L402Error L402TokenData :=
  if t.caveats.expires > 0 ∧ now > t.caveats.expires then .error .Expired
  else if t.signature ≠ l402sign M t.payment_hash t.caveats then .error .BadSignature
  else .ok t

/-! ## BOLT-11 amount parser (src/server.rs, `parse_bolt11_amount`) -/

/-- ASCII lowercasing of one char.  (`str::to_lowercase` performs full
Unicode lowercasing, but no non-ASCII character lowercases into the
alphabet `parse_bolt11_amount` inspects — the prefixes, the digit `1`, the
digits and the multiplier letters — so the ASCII restriction is exact for
this parser.) -/
def rustToLower (c : Char) : Char :=
  if 'A' ≤ c ∧ c ≤ 'Z' then Char.ofNat (c.toNat + 32) else c

/-- Lowercased string, as in the first line of `parse_bolt11_amount`. -/
def lowerStr (s : String) : String :=
  String.mk (s.data.map rustToLower)

/-- `str::find(char)`: position of the first occurrence.  (Rust returns a
byte index; the portion before the first `'1'` is the same char sequence
either way, and the model slices by chars.) -/
def findCharPos : List Char → Char → Option Nat
  | [], _ => none
  | c :: cs, t => if c = t then some 0 else (findCharPos cs t).map (· + 1)

/-- `str::strip_suffix(char)`. -/
def stripSuffix (l : List Char) (c : Char) : Option (List Char) :=
  if l.getLast? = some c then some l.dropLast else none

/-- `u64::from_str`: optional leading `+`, then one or more ASCII digits,
value below `2 ^ 64`. -/
def parseU64 (s : List Char) : Option Nat :=
  let digits := match s with
    | '+' :: rest => rest
    | _ => s
  if digits = [] then none
  else if digits.all (fun c => c.isDigit) then
    let n := digits.foldl (fun a c => a * 10 + (c.toNat - 48)) 0
    if n < 2 ^ 64 then some n else none
  else none

/-- The multiplier-suffix dispatch of `parse_bolt11_amount` (the chain of
`strip_suffix` calls).  Products are u64 multiplications, hence `% 2 ^ 64`;
quotients are u64 integer division. -/
def convertChain (amount_str : List Char) : Option Nat :=
  match stripSuffix amount_str 'm' with
  | some n => (parseU64 n).map (fun v => v * 100000 % 2 ^ 64)
  | none =>
    match stripSuffix amount_str 'u' with
    | some n => (parseU64 n).map (fun v => v * 100 % 2 ^ 64)
    | none =>
      match stripSuffix amount_str 'n' with
      | some n => (parseU64 n).map (fun v => v / 10)
      | none =>
        match stripSuffix amount_str 'p' with
        | some n => (parseU64 n).map (fun v => v / 100)
        | none => (parseU64 amount_str).map (fun v => v * 100000000 % 2 ^ 64)

/-- The body of `parse_bolt11_amount` after the prefix strip: cut at the
first `'1'`, reject an empty amount, then dispatch on the suffix. -/
def bolt11CodeRest (rest : List Char) : Option Nat :=
  match findCharPos rest '1' with
  | none => none
  | some sep_pos =>
    let amount_str := rest.take sep_pos
    if amount_str = [] then none
    else convertChain amount_str

/-- `parse_bolt11_amount` on the lowercased char list: try the prefixes
`lnbcrt`, `lnbc`, `lntb` in that order (longest first). -/
def bolt11CodeCore (l : List Char) : Option Nat :=
  if l.take 6 = "lnbcrt".data then bolt11CodeRest (l.drop 6)
  else if l.take 4 = "lnbc".data then bolt11CodeRest (l.drop 4)
  else if l.take 4 = "lntb".data then bolt11CodeRest (l.drop 4)
  else none

/-- `parse_bolt11_amount` from src/server.rs. -/
def parse_bolt11_amount (bolt11 : String) : Option Nat :=
  bolt11CodeCore (lowerStr bolt11).data

/-! ## Trending-note preview (src/server.rs, `truncate_content`)

`truncate_content` computes `format!("{}...", &content[..max_len])` when
`content.len() > max_len`.  A Rust byte-slice of a `&str` panics when the
end index is not a UTF-8 char boundary; the model returns `none` exactly on
that panic. -/

/-- UTF-8 byte length of a char list (`str::len`). -/
def byteLen : List Char → Nat
  | [] => 0
  | c :: cs => c.utf8Size + byteLen cs

/-- `&s[..n]` on a `&str`: `some` prefix when `n` bytes end on a char
boundary within the string, `none` (panic) otherwise. -/
def slicePrefixBytes : List Char → Nat → Option (List Char)
  | _, 0 => some []
  | [], _ + 1 => none
  | c :: cs, m + 1 =>
    if c.utf8Size ≤ m + 1 then
      (slicePrefixBytes cs (m + 1 - c.utf8Size)).map (fun p => c :: p)
    else none

/-- `truncate_content` from src/server.rs; `none` models the slicing panic. -/
def truncate_content (content : String) (max_len : Nat) : Option String :=
  if byteLen content.data > max_len then
    (slicePrefixBytes content.data max_len).map
      (fun p => String.mk (p ++ "...".data))
  else some content

/-! ## Spec-side BOLT-11 amount function (refinement target for the parser)

`bolt11AmountFromSpec` follows the specification's wording for the parser
(§4.6.4): accepted prefixes `lnbcrt`, `lnbc`, `lntb` matched longest first;
the amount portion is the substring after the prefix up to the first `1`
(none when no `1` exists, since there is then no separator to cut at);
empty portion or a failed numeric parse yields empty; otherwise the last
character selects the conversion.  Two corrections forced by the code's
u64 arithmetic are incorporated: the numeric part must fit in 64 bits
(`parseU64`), and the `m`/`u`/plain products are reduced `% 2 ^ 64`. -/

/-- Conversion by the last character of the amount portion (spec table,
with u64-wrapping products). -/
def convertPortion (portion : List Char) : Option Nat :=
  if portion = [] then none
  else if portion.getLast? = some 'm' then
    (parseU64 portion.dropLast).map (fun v => v * 100000 % 2 ^ 64)
  else if portion.getLast? = some 'u' then
    (parseU64 portion.dropLast).map (fun v => v * 100 % 2 ^ 64)
  else if portion.getLast? = some 'n' then
    (parseU64 portion.dropLast).map (fun v => v / 10)
  else if portion.getLast? = some 'p' then
    (parseU64 portion.dropLast).map (fun v => v / 100)
  else (parseU64 portion).map (fun v => v * 100000000 % 2 ^ 64)

/-- Spec-side treatment of the part after the prefix: the amount portion is
everything up to the first `1`. -/
def bolt11SpecRest (rest : List Char) : Option Nat :=
  if '1' ∈ rest then convertPortion (rest.takeWhile (fun a => a ≠ '1')) else none

/-- The spec-side BOLT-11 amount function on a string. -/
def bolt11AmountFromSpec (s : String) : Option Nat :=
  if s.data.take 6 = "lnbcrt".data then bolt11SpecRest (s.data.drop 6)
  else if s.data.take 4 = "lnbc".data then bolt11SpecRest (s.data.drop 4)
  else if s.data.take 4 = "lntb".data then bolt11SpecRest (s.data.drop 4)
  else none

/-! ## Concrete fixtures used by witnesses and counterexamples -/

deriving instance DecidableEq for Except

/-- Manager whose abstract HMAC is the identity on the signing bytes. -/
def macId : L402Manager := ⟨fun l => l⟩

/-- Empty rate table: every (client, day) at count 0. -/
def store0 : RateStore := fun _ => 0

/-- Rate table with every (client, day) at count 5. -/
def storeFull : RateStore := fun _ => 5

/-- Gate config with a 2-call daily free tier. -/
def cfgTest : Config := ⟨2, 3600⟩

/-- Gateway fixture: hash "u" is unsettled, everything else settled;
invoice creation always succeeds with a fixed invoice. -/
def gwTest : Gateway :=
  { lookup := fun h => if h = "u" then .unsettled else .settled
    mkInvoice := fun _ _ _ _ => .ok ⟨"lnbc-inv", "hash-1"⟩ }

/-- A concrete cached profile. -/
def pTest : CachedProfile :=
  ⟨"pk", some "alice", none, none, none, none, none, none, none⟩

/-- Empty profiles table. -/
def tblEmpty : ProfilesTable := fun _ => none

/-- A row that expired at time 10. -/
def rowTest : ProfileRow := ⟨pTest, 0, 10⟩

/-- Table holding only the expired row for key "pk". -/
def tblOld : ProfilesTable := fun k => if k = "pk" then some rowTest else none

/-! ## Theorems -/

/-- Claim C7: whenever the store errors inside the gate's free-tier check,
the gate treats the call as under the limit and serves it (fails open),
leaving the rate table untouched, instead of denying or erroring. -/
theorem payment_gate_fails_open (cfg : Config) (gw : Option Gateway) (sid : String)
    (today : Nat) (store : RateStore) (tool_name : String) (amount : Nat) :
    payment_gate cfg gw sid today true store tool_name amount none =
      (.ok .Proceed, store) := rfl

/-- Claim C10: when a payment_hash is supplied, the paywall gate never
touches the free-tier rate table — the store is unchanged whatever the
verification outcome (settled, unsettled, wallet RPC error, or absent
gateway). -/
theorem payment_gate_frame (cfg : Config) (gw : Option Gateway) (sid : String)
    (today : Nat) (dbe : Bool) (store : RateStore) (tool_name : String)
    (amount : Nat) (h : String) :
    (payment_gate cfg gw sid today dbe store tool_name amount (some h)).2 = store := by
  cases gw with
  | none => rfl
  | some g => cases hg : g.lookup h <;> simp [payment_gate, hg]

/-- Claim C1: the paywall gate resolves in a fixed order.  With a
payment_hash: no gateway errors "Payment system not configured"; an
unsettled wallet report errors "Payment not confirmed. Invoice may be
unpaid or expired."; a settled report proceeds.  Without one: under the
free-tier limit the call proceeds (incrementing the counter); otherwise
with a gateway the payment-required payload, and without one the
free-tier-exhausted payload, are returned as successful results. -/
theorem payment_gate_order (cfg : Config) (gw : Option Gateway) (g : Gateway)
    (sid : String) (today : Nat) (dbe : Bool) (store : RateStore)
    (tool_name : String) (amount : Nat) (h : String) (inv : Invoice) :
    (payment_gate cfg none sid today dbe store tool_name amount (some h) =
      (.error "Payment system not configured", store)) ∧
    (g.lookup h = .unsettled →
      payment_gate cfg (some g) sid today dbe store tool_name amount (some h) =
        (.error "Payment not confirmed. Invoice may be unpaid or expired.", store)) ∧
    (g.lookup h = .settled →
      payment_gate cfg (some g) sid today dbe store tool_name amount (some h) =
        (.ok .Proceed, store)) ∧
    (store (sid, today) < cfg.calls_per_day →
      payment_gate cfg gw sid today false store tool_name amount none =
        (.ok .Proceed, bumpRate store sid today)) ∧
    (¬ store (sid, today) < cfg.calls_per_day →
      g.mkInvoice tool_name amount ("nostr-intel: " ++ tool_name)
          cfg.invoice_expiry_seconds = .ok inv →
      payment_gate cfg (some g) sid today false store tool_name amount none =
        (.ok (.EarlyReturn (.paymentRequired tool_name amount inv.invoice
          inv.payment_hash (paymentRequiredMsg amount))), store)) ∧
    (¬ store (sid, today) < cfg.calls_per_day →
      payment_gate cfg none sid today false store tool_name amount none =
        (.ok (.EarlyReturn (.freeTierExhausted (store (sid, today)) cfg.calls_per_day
          (freeTierExhaustedMsg (store (sid, today)) cfg.calls_per_day) false)),
          store)) := by
  refine ⟨rfl, ?_, ?_, ?_, ?_, ?_⟩
  · intro hu; simp [payment_gate, hu]
  · intro hs; simp [payment_gate, hs]
  · intro hlt
    simp [payment_gate, freeTier_check_and_increment, check_and_increment_rate, hlt]
  · intro hge hinv
    simp [payment_gate, freeTier_check_and_increment, check_and_increment_rate, hge, hinv]
  · intro hge
    simp [payment_gate, freeTier_check_and_increment, check_and_increment_rate,
      freeTier_get_current_count, get_rate_count, hge]

/-- Witness for C1: each branch of `payment_gate_order` exercised at
concrete inputs. -/
theorem payment_gate_order_witness :
    (payment_gate cfgTest none "s" 7 false store0 "trending_notes" 21 (some "u") =
      (.error "Payment system not configured", store0)) ∧
    (payment_gate cfgTest (some gwTest) "s" 7 false store0 "trending_notes" 21 (some "u") =
      (.error "Payment not confirmed. Invoice may be unpaid or expired.", store0)) ∧
    (payment_gate cfgTest (some gwTest) "s" 7 false store0 "trending_notes" 21 (some "p") =
      (.ok .Proceed, store0)) ∧
    (payment_gate cfgTest (some gwTest) "s" 7 false store0 "trending_notes" 21 none =
      (.ok .Proceed, bumpRate store0 "s" 7)) ∧
    (payment_gate cfgTest (some gwTest) "s" 7 false storeFull "trending_notes" 21 none =
      (.ok (.EarlyReturn (.paymentRequired "trending_notes" 21 "lnbc-inv" "hash-1"
        (paymentRequiredMsg 21))), storeFull)) ∧
    (payment_gate cfgTest none "s" 7 false storeFull "trending_notes" 21 none =
      (.ok (.EarlyReturn (.freeTierExhausted 5 2 (freeTierExhaustedMsg 5 2) false)),
        storeFull)) := by
  refine ⟨?_, ?_, ?_, ?_, ?_, ?_⟩
  · exact (payment_gate_order cfgTest (some gwTest) gwTest "s" 7 false store0
      "trending_notes" 21 "u" ⟨"lnbc-inv", "hash-1"⟩).1
  · exact (payment_gate_order cfgTest (some gwTest) gwTest "s" 7 false store0
      "trending_notes" 21 "u" ⟨"lnbc-inv", "hash-1"⟩).2.1 rfl
  · exact (payment_gate_order cfgTest (some gwTest) gwTest "s" 7 false store0
      "trending_notes" 21 "p" ⟨"lnbc-inv", "hash-1"⟩).2.2.1 rfl
  · exact (payment_gate_order cfgTest (some gwTest) gwTest "s" 7 false store0
      "trending_notes" 21 "p" ⟨"lnbc-inv", "hash-1"⟩).2.2.2.1 (by decide)
  · exact (payment_gate_order cfgTest (some gwTest) gwTest "s" 7 false storeFull
      "trending_notes" 21 "p" ⟨"lnbc-inv", "hash-1"⟩).2.2.2.2.1 (by decide) rfl
  · exact (payment_gate_order cfgTest (some gwTest) gwTest "s" 7 false storeFull
      "trending_notes" 21 "p" ⟨"lnbc-inv", "hash-1"⟩).2.2.2.2.2 (by decide)

/-- Closed form for a sequence of rate-counter calls at one key: starting
from count `c ≤ L`, the i-th call returns `c + i < L` and the final count is
`min (c + n) L`. -/
theorem rateCalls_closed (client : String) (day : Nat) (L : Nat) :
    ∀ (n : Nat) (store : RateStore) (c : Nat), store (client, day) = c → c ≤ L →
      (rateCalls client day L n store).1 =
        (List.range n).map (fun i => decide (c + i < L)) ∧
      (rateCalls client day L n store).2 (client, day) = min (c + n) L := by
  intro n
  induction n with
  | zero =>
    intro store c hc hcl
    refine ⟨by simp [rateCalls], ?_⟩
    simp [rateCalls, hc]
    omega
  | succ n ih =>
    intro store c hc hcl
    by_cases hlt : c < L
    · have h1 : check_and_increment_rate store client day L =
          (true, bumpRate store client day) := by
        simp [check_and_increment_rate, hc, hlt]
      have hb : (bumpRate store client day) (client, day) = c + 1 := by
        simp [bumpRate, hc]
      obtain ⟨ih1, ih2⟩ := ih (bumpRate store client day) (c + 1) hb (by omega)
      have hfun : (fun i => decide (c + 1 + i < L)) =
          (fun i => decide (c + (i + 1) < L)) := by
        funext i
        exact decide_eq_decide.mpr (by omega)
      constructor
      · rw [List.range_succ_eq_map]
        simp only [rateCalls, h1, List.map_cons, List.map_map]
        rw [ih1, hfun]
        simp [hlt, Function.comp_def]
      · simp only [rateCalls, h1]
        rw [ih2]
        omega
    · have h1 : check_and_increment_rate store client day L = (false, store) := by
        simp [check_and_increment_rate, hc, hlt]
      obtain ⟨ih1, ih2⟩ := ih store c hc hcl
      have hc' : c = L := by omega
      subst hc'
      constructor
      · rw [List.range_succ_eq_map]
        simp only [rateCalls, h1, List.map_cons, List.map_map]
        rw [ih1]
        congr 1
        · simp
        · exact List.map_congr_left (fun a _ => decide_eq_decide.mpr (by omega))
      · simp only [rateCalls, h1]
        rw [ih2]
        omega

/-- Counting the allowed calls: among `0, …, n−1`, exactly `min n L` values
satisfy `i < L`. -/
theorem count_true_range (L : Nat) :
    ∀ n, (((List.range n).map (fun i => decide (i < L))).count true) = min n L := by
  intro n
  induction n with
  | zero => simp
  | succ n ih =>
    rw [List.range_succ, List.map_append, List.count_append]
    by_cases h : n < L
    · simp [h, ih]
      omega
    · simp [h, ih]
      omega

/-- Claim C2: for a fixed (session_id, day_ordinal) key and limit L,
starting from a fresh counter, after any number n of
`check_and_increment_rate` calls the number of calls that returned true is
`min n L` (hence never exceeds L) and the stored count equals `min n L`;
and a single call returns true iff its pre-increment count is strictly
below L, incrementing exactly in that case. -/
theorem rate_counter_invariant (client : String) (day : Nat) (L : Nat)
    (store : RateStore) (n : Nat) (s : RateStore)
    (h0 : store (client, day) = 0) :
    ((rateCalls client day L n store).1.count true = min n L) ∧
    ((rateCalls client day L n store).1.count true ≤ L) ∧
    ((rateCalls client day L n store).2 (client, day) = min n L) ∧
    ((check_and_increment_rate s client day L).1 = true ↔ s (client, day) < L) ∧
    ((check_and_increment_rate s client day L).2 (client, day) =
      if s (client, day) < L then s (client, day) + 1 else s (client, day)) := by
  obtain ⟨h1, h2⟩ := rateCalls_closed client day L n store 0 h0 (Nat.zero_le L)
  simp only [Nat.zero_add] at h1 h2
  refine ⟨?_, ?_, h2, ?_, ?_⟩
  · rw [h1]
    exact count_true_range L n
  · rw [h1, count_true_range L n]
    exact Nat.min_le_right n L
  · by_cases hs : s (client, day) < L <;> simp [check_and_increment_rate, hs]
  · by_cases hs : s (client, day) < L <;>
      simp [check_and_increment_rate, bumpRate, hs]

/-- Witness for C2: three calls against limit 2 from a fresh store — two
allowed, one denied, final count 2. -/
theorem rate_counter_invariant_witness :
    ((rateCalls "s" 7 2 3 store0).1.count true = min 3 2) ∧
    ((rateCalls "s" 7 2 3 store0).1.count true ≤ 2) ∧
    ((rateCalls "s" 7 2 3 store0).2 ("s", 7) = min 3 2) ∧
    ((check_and_increment_rate store0 "s" 7 2).1 = true ↔ store0 ("s", 7) < 2) ∧
    ((check_and_increment_rate store0 "s" 7 2).2 ("s", 7) =
      if store0 ("s", 7) < 2 then store0 ("s", 7) + 1 else store0 ("s", 7)) :=
  rate_counter_invariant "s" 7 2 store0 3 store0 rfl

/-- Claim C5: for every payment_hash, tool, and expires strictly greater
than the verification time, `verify_token` applied to the output of
`create_token` succeeds and returns a token with the same payment_hash,
tool, and expires. -/
theorem l402_roundtrip (M : L402Manager) (ph tool : String) (e now : Nat)
    (hgt : e > now) :
    verify_token M (create_token M ph tool e) now = .ok (create_token M ph tool e) ∧
    (create_token M ph tool e).payment_hash = ph ∧
    (create_token M ph tool e).caveats.tool = tool ∧
    (create_token M ph tool e).caveats.expires = e := by
  refine ⟨?_, rfl, rfl, rfl⟩
  have hexp : ¬ ((create_token M ph tool e).caveats.expires > 0 ∧
      now > (create_token M ph tool e).caveats.expires) := by
    simp only [create_token]
    omega
  simp [verify_token, create_token, hexp]
  omega

/-- Witness for C5: a concrete round-trip. -/
theorem l402_roundtrip_witness :
    verify_token macId (create_token macId "ab" "cd" 2) 0 =
      .ok (create_token macId "ab" "cd" 2) ∧
    (create_token macId "ab" "cd" 2).payment_hash = "ab" ∧
    (create_token macId "ab" "cd" 2).caveats.tool = "cd" ∧
    (create_token macId "ab" "cd" 2).caveats.expires = 2 :=
  l402_roundtrip macId "ab" "cd" 2 0 (by decide)

/-- Claim C6 fails as stated: a token created with expires = 100, with its
expires mutated to the different value 3 and re-encoded, is rejected at
verification time 50 with `Expired`, not `BadSignature` (the expiry check
runs before the signature check). -/
theorem l402_mutation_cex :
    (3 : Nat) ≠ 100 ∧
    verify_token macId ⟨"abc", ⟨"tool", 3⟩, l402sign macId "abc" ⟨"tool", 100⟩⟩ 50 =
      .error .Expired ∧
    verify_token macId ⟨"abc", ⟨"tool", 3⟩, l402sign macId "abc" ⟨"tool", 100⟩⟩ 50 ≠
      .error .BadSignature := by
  refine ⟨by decide, by decide, by decide⟩

/-- Claim C6 (amended): mutating exactly one of payment_hash, tool, or
expires in a token produced by `create_token` makes `verify_token` fail
with `BadSignature`, provided the expires value seen by the verifier has
not passed (otherwise the mutation fails earlier with `Expired`) and the
recomputed HMAC of the mutated fields differs from the stored signature
(which a single-field mutation guarantees barring an HMAC-SHA256
collision, since it always changes the signing byte stream). -/
theorem l402_tamper_amended (M : L402Manager) (ph tool ph' tool' : String)
    (e e' now : Nat) :
    (¬(e > 0 ∧ now > e) → ph' ≠ ph →
      l402sign M ph' ⟨tool, e⟩ ≠ l402sign M ph ⟨tool, e⟩ →
      verify_token M ⟨ph', ⟨tool, e⟩, l402sign M ph ⟨tool, e⟩⟩ now =
        .error .BadSignature) ∧
    (¬(e > 0 ∧ now > e) → tool' ≠ tool →
      l402sign M ph ⟨tool', e⟩ ≠ l402sign M ph ⟨tool, e⟩ →
      verify_token M ⟨ph, ⟨tool', e⟩, l402sign M ph ⟨tool, e⟩⟩ now =
        .error .BadSignature) ∧
    (e' ≠ e → ¬(e' > 0 ∧ now > e') →
      l402sign M ph ⟨tool, e'⟩ ≠ l402sign M ph ⟨tool, e⟩ →
      verify_token M ⟨ph, ⟨tool, e'⟩, l402sign M ph ⟨tool, e⟩⟩ now =
        .error .BadSignature) ∧
    (e' > 0 ∧ now > e' →
      verify_token M ⟨ph, ⟨tool, e'⟩, l402sign M ph ⟨tool, e⟩⟩ now =
        .error .Expired) := by
  refine ⟨?_, ?_, ?_, ?_⟩
  · intro hexp hne hsig
    simp [verify_token, hexp, Ne.symm hsig]
  · intro hexp hne hsig
    simp [verify_token, hexp, Ne.symm hsig]
  · intro hne hexp hsig
    simp [verify_token, hexp, Ne.symm hsig]
  · intro hexp
    simp [verify_token, hexp]

/-- Witness for C6 (amended): concrete mutations of each field. -/
theorem l402_tamper_witness :
    (verify_token macId ⟨"zz", ⟨"cd", 0⟩, l402sign macId "ab" ⟨"cd", 0⟩⟩ 9 =
      .error .BadSignature) ∧
    (verify_token macId ⟨"ab", ⟨"qq", 0⟩, l402sign macId "ab" ⟨"cd", 0⟩⟩ 9 =
      .error .BadSignature) ∧
    (verify_token macId ⟨"ab", ⟨"cd", 7⟩, l402sign macId "ab" ⟨"cd", 0⟩⟩ 5 =
      .error .BadSignature) ∧
    (verify_token macId ⟨"ab", ⟨"cd", 3⟩, l402sign macId "ab" ⟨"cd", 0⟩⟩ 5 =
      .error .Expired) := by
  refine ⟨?_, ?_, ?_, ?_⟩
  · exact (l402_tamper_amended macId "ab" "cd" "zz" "qq" 0 7 9).1
      (by decide) (by decide) (by decide)
  · exact (l402_tamper_amended macId "ab" "cd" "zz" "qq" 0 7 9).2.1
      (by decide) (by decide) (by decide)
  · exact (l402_tamper_amended macId "ab" "cd" "zz" "qq" 0 7 5).2.2.1
      (by decide) (by decide) (by decide)
  · exact (l402_tamper_amended macId "ab" "cd" "zz" "qq" 0 3 5).2.2.2
      (by decide)

/-- Claim C8: a profile inserted by `set_profile` at time `now` with TTL
`ttl` is returned by `get_profile` at every time strictly before
`now + ttl`, and `get_profile` returns empty at every time at or after
`now + ttl`; more generally a lookup never returns a row whose expires_at
has passed. -/
theorem profile_cache_ttl (tbl : ProfilesTable) (p : CachedProfile)
    (now ttl u now2 : Int) (tbl2 : ProfilesTable) (k : String)
    (row : ProfileRow) :
    (u < now + ttl →
      get_profile (set_profile tbl p now ttl) p.pubkey u = some p) ∧
    (now + ttl ≤ u →
      get_profile (set_profile tbl p now ttl) p.pubkey u = none) ∧
    (tbl2 k = some row → row.expires_at ≤ now2 →
      get_profile tbl2 k now2 = none) := by
  refine ⟨?_, ?_, ?_⟩
  · intro h
    simp [get_profile, set_profile, h]
  · intro h
    simp [get_profile, set_profile]
    omega
  · intro h1 h2
    simp [get_profile, h1]
    omega

/-- Witness for C8: a profile cached at time 100 with TTL 50 is visible at
149, gone at 150; an expired row is never returned. -/
theorem profile_cache_ttl_witness :
    (get_profile (set_profile tblEmpty pTest 100 50) pTest.pubkey 149 = some pTest) ∧
    (get_profile (set_profile tblEmpty pTest 100 50) pTest.pubkey 150 = none) ∧
    (get_profile tblOld "pk" 20 = none) := by
  refine ⟨?_, ?_, ?_⟩
  · exact (profile_cache_ttl tblEmpty pTest 100 50 149 20 tblOld "pk" rowTest).1
      (by decide)
  · exact (profile_cache_ttl tblEmpty pTest 100 50 150 20 tblOld "pk" rowTest).2.1
      (by decide)
  · exact (profile_cache_ttl tblEmpty pTest 100 50 150 20 tblOld "pk" rowTest).2.2
      rfl (by decide)

set_option maxRecDepth 10000 in
/-- Claim C9 fails as stated on the code: `truncate_content` slices the
content at byte 280, which panics when byte 280 is not a UTF-8 char
boundary — here on 279 ASCII bytes followed by a two-byte character (281
bytes total, no boundary at 280).  On pure-ASCII content the function
behaves as described: short content is returned unmodified and long
content is cut to 280 bytes plus an ellipsis. -/
theorem truncate_content_panics :
    truncate_content (String.mk (List.replicate 279 'a' ++ ['é'])) 280 = none ∧
    truncate_content "short note" 280 = some "short note" ∧
    truncate_content (String.mk (List.replicate 281 'a')) 280 =
      some (String.mk (List.replicate 280 'a' ++ "...".data)) := by
  refine ⟨by decide, by decide, by decide⟩

/-- Claim C3 fails on the code: `parse_bolt11_amount` cuts the amount at
the FIRST `1` after the prefix, so any amount whose digits start with `1`
is lost — `lnbc1500n1…`, `lnbc10u1…`, `lnbc1m1…` and `lnbc1` all evaluate
to `none`, where the claim (and BOLT-11) expects 150, 1000, 100000 sats
(and the claim expects 100000000 for `lnbc1`).  Amounts free of the digit
`1` (`lnbc2500n1…`, `lnbc20u1…`) do convert as documented, and an
unaccepted prefix yields empty. -/
theorem bolt11_code_behavior :
    parse_bolt11_amount "lnbc1500n1pj257fh" = none ∧
    parse_bolt11_amount "lnbc10u1abc" = none ∧
    parse_bolt11_amount "lnbc1m1xy" = none ∧
    parse_bolt11_amount "lnbc1" = none ∧
    parse_bolt11_amount "lnbc2500n1x" = some 250 ∧
    parse_bolt11_amount "lnbc20u1x" = some 2000 ∧
    parse_bolt11_amount "xxbc5u1" = none := by
  refine ⟨by decide, by decide, by decide, by decide, by decide, by decide, by decide⟩

/-- Claim C4 fails as stated at one point: the conversion products are u64
multiplications, which wrap.  For the amount 200000000000000 with the `m`
multiplier the true product 2×10^19 exceeds 2^64−1, and the code returns
the wrapped value instead of n×100_000. -/
theorem bolt11_overflow_cex :
    parse_bolt11_amount "lnbc200000000000000m1" = some 1553255926290448384 ∧
    parse_bolt11_amount "lnbc200000000000000m1" ≠
      some (200000000000000 * 100000) := by
  refine ⟨by decide, by decide⟩

/-- `str::find` returns `none` exactly when the char does not occur. -/
theorem findCharPos_eq_none (l : List Char) (c : Char) :
    findCharPos l c = none ↔ c ∉ l := by
  induction l with
  | nil => simp [findCharPos]
  | cons x xs ih =>
    by_cases hx : x = c
    · simp [findCharPos, hx]
    · simp [findCharPos, hx, ih, Ne.symm hx]

/-- The prefix before the first occurrence of a char is its `takeWhile`. -/
theorem findCharPos_take (c : Char) :
    ∀ (l : List Char) (i : Nat), findCharPos l c = some i →
      l.take i = l.takeWhile (fun a => a ≠ c) := by
  intro l
  induction l with
  | nil => intro i h; simp [findCharPos] at h
  | cons x xs ih =>
    intro i h
    by_cases hx : x = c
    · simp [findCharPos, hx] at h
      subst h
      simp [hx]
    · simp [findCharPos, hx] at h
      obtain ⟨j, hj, hji⟩ := h
      subst hji
      simp [List.take, List.takeWhile, hx, ih j hj]

/-- The `strip_suffix` chain agrees with dispatching on the last char. -/
theorem convertChain_eq (a : List Char) (ha : a ≠ []) :
    convertChain a = convertPortion a := by
  by_cases hm : a.getLast? = some 'm'
  · simp [convertChain, convertPortion, stripSuffix, ha, hm]
  · by_cases hu : a.getLast? = some 'u'
    · simp [convertChain, convertPortion, stripSuffix, ha, hm, hu]
    · by_cases hn : a.getLast? = some 'n'
      · simp [convertChain, convertPortion, stripSuffix, ha, hm, hu, hn]
      · by_cases hp : a.getLast? = some 'p'
        · simp [convertChain, convertPortion, stripSuffix, ha, hm, hu, hn, hp]
        · simp [convertChain, convertPortion, stripSuffix, ha, hm, hu, hn, hp]

/-- After the prefix strip, the code's first-`1` cut agrees with the
spec-side takeWhile form. -/
theorem bolt11Rest_eq (rest : List Char) :
    bolt11CodeRest rest = bolt11SpecRest rest := by
  unfold bolt11CodeRest bolt11SpecRest
  cases hf : findCharPos rest '1' with
  | none =>
    have hmem : '1' ∉ rest := (findCharPos_eq_none rest '1').mp hf
    simp [hmem]
  | some i =>
    have hmem : '1' ∈ rest := by
      by_contra hn
      rw [← findCharPos_eq_none rest '1'] at hn
      rw [hn] at hf
      exact Option.noConfusion hf
    dsimp only
    rw [findCharPos_take '1' rest i hf, if_pos hmem]
    generalize rest.takeWhile (fun a => a ≠ '1') = a
    by_cases he : a = []
    · rw [if_pos he, he]
      simp [convertPortion]
    · rw [if_neg he]
      exact convertChain_eq a he

/-- Claim C4 (amended): for every input string, `parse_bolt11_amount`
equals the spec-side function applied to the lowercased input (the code
matches prefixes case-insensitively): accepted prefixes `lnbcrt`, `lnbc`,
`lntb` longest first; the amount portion is the substring after the prefix
up to the first `1` (empty result when no `1` follows the prefix); an
empty portion or a numeric part that fails to parse as a non-negative
64-bit integer yields empty; otherwise the last character selects
`m` → n×100_000, `u` → n×100, `n` → n/10, `p` → n/100, no suffix →
n×100_000_000, each product reduced modulo 2^64 (u64 wrapping). -/
theorem bolt11_amount_characterization (s : String) :
    parse_bolt11_amount s = bolt11AmountFromSpec (lowerStr s) := by
  unfold parse_bolt11_amount bolt11CodeCore bolt11AmountFromSpec
  split_ifs <;> first | rfl | exact bolt11Rest_eq _
